import Mathlib

/-!
Shallow embedding of the CalDAV → Google Calendar one-way sync script
(src/script.py) and proofs of the specification claims about it.

The embedding models, faithfully to the source:
  * the pure helpers of the script (to_rfc3339, the identity-key fallback
    hash, the last-modified normalization in parse_vevents),
  * Python datetime/date values and the stdlib operations the script uses
    (timedelta addition, astimezone(timezone.utc), isoformat, str),
  * SHA-1 exactly as hashlib.sha1(...).hexdigest() computes it,
  * the reconciliation step ensure_event as a state transformer over the
    destination calendar (a list of Google events), recording every
    destination call (list / insert / patch) and every log line it emits,
  * the per-run driver loop of main.

Machine words are modelled as Nat with explicit reduction mod 2^32.
-/

namespace IServSync

/-! ## Small rendering helpers (Python zero-padded decimal, hex) -/

/-- Decimal rendering of a natural number, two digits, zero padded
(Python %02d for values below 100). -/
def pad2 (n : Nat) : String :=
  if n < 10 then "0" ++ toString n else toString n

/-- Decimal rendering, four digits, zero padded (Python %04d). -/
def pad4 (n : Nat) : String :=
  if n < 10 then "000" ++ toString n
  else if n < 100 then "00" ++ toString n
  else if n < 1000 then "0" ++ toString n
  else toString n

/-- Decimal rendering, six digits, zero padded (Python %06d, used for
datetime microseconds). -/
def pad6 (n : Nat) : String :=
  if n < 10 then "00000" ++ toString n
  else if n < 100 then "0000" ++ toString n
  else if n < 1000 then "000" ++ toString n
  else if n < 10000 then "00" ++ toString n
  else if n < 100000 then "0" ++ toString n
  else toString n

/-- One lower-case hexadecimal digit. -/
def hexDigit (n : Nat) : String :=
  String.singleton (Char.ofNat (if n % 16 < 10 then 48 + n % 16 else 87 + n % 16))

/-- Big-endian lower-case hexadecimal rendering with exactly k digits. -/
def hexN : Nat → Nat → String
  | 0, _ => ""
  | k + 1, n => hexN k (n / 16) ++ hexDigit (n % 16)

/-- Characters Python str.strip() removes: ASCII whitespace and control
separators plus the Unicode whitespace code points. -/
def isPySpace (c : Char) : Bool :=
  let n := c.toNat
  (9 ≤ n && n ≤ 13) || (28 ≤ n && n ≤ 32) || n = 133 || n = 160 || n = 5760
    || (8192 ≤ n && n ≤ 8202) || n = 8232 || n = 8233 || n = 8239 || n = 8287
    || n = 12288

/-- Python str.strip(): removes leading and trailing whitespace. -/
def pyStrip (s : String) : String :=
  ⟨((s.data.dropWhile isPySpace).reverse.dropWhile isPySpace).reverse⟩

/-! ## UTF-8 encoding (Python str.encode()) -/

/-- UTF-8 encoding of one Unicode scalar value, as a list of byte values. -/
def utf8Char (c : Char) : List Nat :=
  let n := c.toNat
  if n < 128 then [n]
  else if n < 2048 then [192 + n / 64, 128 + n % 64]
  else if n < 65536 then [224 + n / 4096, 128 + n / 64 % 64, 128 + n % 64]
  else [240 + n / 262144, 128 + n / 4096 % 64, 128 + n / 64 % 64, 128 + n % 64]

/-- UTF-8 bytes of a string, as Python s.encode() produces them. -/
def utf8Bytes (s : String) : List Nat :=
  s.data.foldr (fun c acc => utf8Char c ++ acc) []

/-! ## SHA-1 (hashlib.sha1), over byte lists, words as Nat mod 2^32 -/

/-- Word size constant 2^32. -/
def w32 : Nat := 4294967296

/-- Left rotation of a 32-bit word by k bits. -/
def rotl (k n : Nat) : Nat :=
  ((n <<< k) % w32) ||| (n >>> (32 - k))

/-- Big-endian 8-byte rendering of the 64-bit message bit length. -/
def bytesBE8 (n : Nat) : List Nat :=
  [n >>> 56 % 256, n >>> 48 % 256, n >>> 40 % 256, n >>> 32 % 256,
   n >>> 24 % 256, n >>> 16 % 256, n >>> 8 % 256, n % 256]

/-- SHA-1 padding: append 0x80, zero bytes up to 56 mod 64, then the
bit length as 8 bytes big endian. -/
def padMessage (msg : List Nat) : List Nat :=
  let z := (120 - (msg.length + 1) % 64) % 64
  msg ++ [128] ++ List.replicate z 0 ++ bytesBE8 (8 * msg.length)

/-- Splits a byte list into successive 64-byte chunks; the fuel argument
makes the recursion structural (it bounds the number of chunks). -/
def chunks64F : Nat → List Nat → List (List Nat)
  | 0, _ => []
  | _, [] => []
  | fuel + 1, a :: rest => ((a :: rest).take 64) :: chunks64F fuel ((a :: rest).drop 64)

/-- Splits a byte list into successive 64-byte chunks. -/
def chunks64 (l : List Nat) : List (List Nat) :=
  chunks64F l.length l

/-- Packs bytes into 32-bit big-endian words. -/
def words32 : List Nat → List Nat
  | b0 :: b1 :: b2 :: b3 :: rest =>
      ((b0 % 256) <<< 24 ||| (b1 % 256) <<< 16 ||| (b2 % 256) <<< 8 ||| b3 % 256)
        :: words32 rest
  | _ => []

/-- Extends the 16-word schedule by k further words; the schedule is kept
reversed so that positions i-3, i-8, i-14, i-16 are at indices 2, 7, 13, 15. -/
def extendSchedule (rev : List Nat) : Nat → List Nat
  | 0 => rev
  | k + 1 =>
      let x := rotl 1 ((rev.getD 2 0) ^^^ (rev.getD 7 0) ^^^ (rev.getD 13 0) ^^^ (rev.getD 15 0))
      extendSchedule (x :: rev) k

/-- Message schedule of 80 words for one 64-byte chunk. -/
def schedule (chunk : List Nat) : List Nat :=
  (extendSchedule (words32 chunk).reverse 64).reverse

/-- One SHA-1 compression round; the pair carries the round index and
the schedule word. -/
def sha1Round (st : Nat × Nat × Nat × Nat × Nat) (iw : Nat × Nat) :
    Nat × Nat × Nat × Nat × Nat :=
  let (a, b, c, d, e) := st
  let (i, w) := iw
  let f :=
    if i < 20 then (b &&& c) ||| ((b ^^^ 4294967295) &&& d)
    else if i < 40 then b ^^^ c ^^^ d
    else if i < 60 then (b &&& c) ||| (b &&& d) ||| (c &&& d)
    else b ^^^ c ^^^ d
  let k :=
    if i < 20 then 1518500249
    else if i < 40 then 1859775393
    else if i < 60 then 2400959708
    else 3395469782
  ((rotl 5 a + f + e + k + w) % w32, a, rotl 30 b, c, d)

/-- Processes one 64-byte chunk, updating the five hash words. -/
def processChunk (h : Nat × Nat × Nat × Nat × Nat) (chunk : List Nat) :
    Nat × Nat × Nat × Nat × Nat :=
  let (a, b, c, d, e) := (schedule chunk).enum.foldl sha1Round h
  let (h0, h1, h2, h3, h4) := h
  ((h0 + a) % w32, (h1 + b) % w32, (h2 + c) % w32, (h3 + d) % w32, (h4 + e) % w32)

/-- SHA-1 digest of a byte list, as the 160-bit big-endian natural number
that hexdigest renders. -/
def sha1Nat (msg : List Nat) : Nat :=
  let t := (chunks64 (padMessage msg)).foldl processChunk
    (1732584193, 4023233417, 2562383102, 271733878, 3285377520)
  let (h0, h1, h2, h3, h4) := t
  ((((h0 % w32) * w32 + h1 % w32) * w32 + h2 % w32) * w32 + h3 % w32) * w32 + h4 % w32

/-- The hex digest string hashlib.sha1(msg).hexdigest(): 40 lower-case
hex digits, big endian. -/
def sha1Hex (msg : List Nat) : String :=
  hexN 40 (sha1Nat msg)

/-! ## Python datetime / date model

Python datetime values are field based (year, month, day, hour, minute,
second, microsecond, tzinfo). The tzinfo is modelled by its UTC offset in
seconds; none models a naive value. The stdlib arithmetic the script uses
(timedelta addition, astimezone) works through the proleptic-Gregorian
day count, modelled by the standard civil-calendar conversions below.
Note that on Int, / and % are Euclidean and all divisors below are
positive, so they agree with Python floor division. -/

/-- Days from 1970-01-01 of a civil date, proleptic Gregorian. -/
def daysFromCivil (y : Int) (m d : Nat) : Int :=
  let y2 : Int := if m ≤ 2 then y - 1 else y
  let era : Int := y2 / 400
  let yoe : Nat := (y2 - era * 400).toNat
  let mp : Nat := if m ≤ 2 then m + 9 else m - 3
  let doy : Nat := (153 * mp + 2) / 5 + (d - 1)
  let doe : Nat := yoe * 365 + yoe / 4 - yoe / 100 + doy
  era * 146097 + (doe : Int) - 719468

/-- Civil date (year, month, day) of a day count from 1970-01-01. -/
def civilFromDays (z0 : Int) : Int × Nat × Nat :=
  let z : Int := z0 + 719468
  let era : Int := z / 146097
  let doe : Nat := (z - era * 146097).toNat
  let yoe : Nat := (doe - doe / 1460 + doe / 36524 - doe / 146096) / 365
  let doy : Nat := doe - (365 * yoe + yoe / 4 - yoe / 100)
  let mp : Nat := (5 * doy + 2) / 153
  let d : Nat := doy - (153 * mp + 2) / 5 + 1
  let m : Nat := if mp < 10 then mp + 3 else mp - 9
  (era * 400 + yoe + (if m ≤ 2 then 1 else 0), m, d)

/-- Model of a Python datetime value: civil fields plus an optional
tzinfo given as its UTC offset in seconds (none models a naive value). -/
structure PyDateTime where
  year : Int
  month : Nat
  day : Nat
  hour : Nat
  minute : Nat
  second : Nat
  micro : Nat
  tz : Option Int
deriving DecidableEq, Repr

/-- Model of a Python date value. -/
structure PyDate where
  year : Int
  month : Nat
  day : Nat
deriving DecidableEq, Repr

/-- Wall-clock seconds of a datetime since 1970-01-01 00:00:00, ignoring
the tz field (Python timedelta arithmetic acts on these fields). -/
def wallSecs (t : PyDateTime) : Int :=
  daysFromCivil t.year t.month t.day * 86400
    + (t.hour * 3600 + t.minute * 60 + t.second : Nat)

/-- Rebuilds datetime fields from wall-clock seconds. -/
def ofWallSecs (z : Int) (micro : Nat) (tz : Option Int) : PyDateTime :=
  let days : Int := z / 86400
  let sod : Nat := (z - days * 86400).toNat
  let c := civilFromDays days
  ⟨c.1, c.2.1, c.2.2, sod / 3600, sod % 3600 / 60, sod % 60, micro, tz⟩

/-- Python dt + timedelta(seconds=n): adds to the wall-clock fields,
keeping microseconds and tzinfo. -/
def pyAddSeconds (t : PyDateTime) (n : Int) : PyDateTime :=
  ofWallSecs (wallSecs t + n) t.micro t.tz

/-- Python dt + timedelta(days=n). -/
def pyAddDays (t : PyDateTime) (n : Int) : PyDateTime :=
  pyAddSeconds t (n * 86400)

/-- Python dt.astimezone(timezone.utc). An aware value is shifted by its
own UTC offset; a naive value is presumed to be in the system timezone,
whose offset is the hostTz argument. -/
def astimezoneUtc (hostTz : Int) (t : PyDateTime) : PyDateTime :=
  ofWallSecs (wallSecs t - (t.tz.getD hostTz)) t.micro (some 0)

/-- UTC offset rendering in isoformat: sign, HH:MM, and seconds only
when the offset is not a whole number of minutes. -/
def renderOffset (o : Int) : String :=
  let a := o.natAbs
  (if o < 0 then "-" else "+") ++ pad2 (a / 3600) ++ ":" ++ pad2 (a % 3600 / 60)
    ++ (if a % 60 = 0 then "" else ":" ++ pad2 (a % 60))

/-- Python datetime.isoformat with a given separator: fields rendered
zero padded, microseconds only when nonzero, offset only when aware. -/
def isoformatSep (sep : String) (t : PyDateTime) : String :=
  pad4 t.year.toNat ++ "-" ++ pad2 t.month ++ "-" ++ pad2 t.day ++ sep
    ++ pad2 t.hour ++ ":" ++ pad2 t.minute ++ ":" ++ pad2 t.second
    ++ (if t.micro = 0 then "" else "." ++ pad6 t.micro)
    ++ (match t.tz with | none => "" | some o => renderOffset o)

/-- Python datetime.isoformat(). -/
def isoformatDT (t : PyDateTime) : String :=
  isoformatSep "T" t

/-- Python str(datetime), which is isoformat with a space separator. -/
def pyStrDT (t : PyDateTime) : String :=
  isoformatSep " " t

/-- Python date.isoformat() and str(date). -/
def isoformatDate (d : PyDate) : String :=
  pad4 d.year.toNat ++ "-" ++ pad2 d.month ++ "-" ++ pad2 d.day

/-- Decoded DTSTART/DTEND/LAST-MODIFIED value: either a datetime or a
date, as the icalendar decoder produces. -/
inductive DTValue where
  | dt (t : PyDateTime)
  | date (d : PyDate)
deriving DecidableEq, Repr

/-- Python str() of a decoded value. -/
def pyStrDTV : DTValue → String
  | .dt t => pyStrDT t
  | .date d => isoformatDate d

/-- Python str() of an optional decoded value; str(None) is "None". -/
def pyStrOptDTV : Option DTValue → String
  | none => "None"
  | some v => pyStrDTV v

/-! ## Event normalization (script.py: to_rfc3339, parse_vevents) -/

/-- Google event time payload: either a dateTime field or a date field,
mirroring the start/end payload dicts the script builds. -/
inductive TimePayload where
  | dateTime (s : String)
  | date (s : String)
deriving DecidableEq, Repr

/-- Model of to_rfc3339 restricted to datetime input (script.py lines
59-64): a naive value first gets tzinfo=timezone.utc, then the value is
converted via astimezone(timezone.utc) and rendered with isoformat.
Because of the replace step the system timezone is never consulted. -/
def to_rfc3339dt (t : PyDateTime) : String :=
  isoformatDT (astimezoneUtc 0 { t with tz := some (t.tz.getD 0) })

/-- Model of to_rfc3339 (script.py lines 59-64): date-only input yields
None. -/
def to_rfc3339 : DTValue → Option String
  | .dt t => some (to_rfc3339dt t)
  | .date _ => none

/-- Model of the lastmod_iso computation (script.py lines 80-87). For a
datetime value, lm.astimezone(timezone.utc).isoformat() is taken with
no naive guard, so a naive value is presumed to be in the system
timezone (offset hostTz); for a date value, midnight UTC on that date is
rendered. -/
def lastmodIso (hostTz : Int) : DTValue → String
  | .dt lm => isoformatDT (astimezoneUtc hostTz lm)
  | .date lm => isoformatDT ⟨lm.year, lm.month, lm.day, 0, 0, 0, 0, some 0⟩

/-- One decoded VEVENT component as the script reads it: the text
properties already passed through str() (an absent property reads as ""
via the get default), the time properties already decoded, LAST-MODIFIED
and DTSTAMP kept separate because the script takes the first present. -/
structure VEvent where
  uid : String
  summary : String
  description : String
  dtstart : DTValue
  dtend : Option DTValue
  lastModified : Option DTValue
  dtstamp : Option DTValue
deriving DecidableEq, Repr

/-- Identity key of an event with no usable UID (script.py lines 76-78):
"fallback-" plus the hex SHA-1 of the UTF-8 bytes of the stripped summary
concatenated with str(dtstart) and str(dtend). -/
def fallbackKey (summary startStr endStr : String) : String :=
  "fallback-" ++ sha1Hex (utf8Bytes (summary ++ startStr ++ endStr))

/-- Canonical event record yielded by parse_vevents (script.py lines
106-113). -/
structure SrcEvent where
  uid : String
  summary : String
  description : String
  startPayload : TimePayload
  endPayload : TimePayload
  lastmod : Option String
deriving DecidableEq, Repr

/-- Normalization of one VEVENT component (script.py lines 68-113),
parameterized by the system UTC offset hostTz, which the code consults
only through the naive-lastmod astimezone call. -/
def normalizeVEvent (hostTz : Int) (v : VEvent) : SrcEvent :=
  let uid0 := pyStrip v.uid
  let summary := pyStrip v.summary
  let description := pyStrip v.description
  let uid := if uid0 = "" then
      fallbackKey summary (pyStrDTV v.dtstart) (pyStrOptDTV v.dtend)
    else uid0
  let lastmod := (v.lastModified <|> v.dtstamp).map (lastmodIso hostTz)
  let startPayload := match v.dtstart with
    | .dt t => TimePayload.dateTime (to_rfc3339dt t)
    | .date d => TimePayload.date (isoformatDate d)
  let endPayload := match v.dtend with
    | some (.dt t) => TimePayload.dateTime (to_rfc3339dt t)
    | some (.date d) => TimePayload.date (isoformatDate d)
    | none => match v.dtstart with
      | .dt t => TimePayload.dateTime (to_rfc3339dt (pyAddSeconds t 3600))
      | .date d => TimePayload.date (isoformatDate d)
  ⟨uid, summary, description, startPayload, endPayload, lastmod⟩

/-! ## Destination model and the reconciler (script.py: ensure_event)

The Google calendar is modelled as the list of its events, in the order
the list query returns them. The private extended properties of an event
form a string-keyed dictionary, modelled as an association list with
first-match lookup. The events().list call filters by the two
privateExtendedProperty clauses source=ISERV and uid=..., and by the
timeMin/timeMax window; the window filtering is destination-side
behavior, modelled by an abstract boolean predicate on the bounds and
the event times. The patch call addresses items[0] by its unique
destination id, modelled as replacement of the first matching event. -/

/-- Dictionary lookup in a private-properties association list
(Python dict.get). -/
def privGet : List (String × String) → String → Option String
  | [], _ => none
  | (k, v) :: rest, key => if k = key then some v else privGet rest key

/-- Dictionary update: the Python merge of a dict with one overriding
key, as in the patch body. Every other key keeps its value. -/
def privSet (ps : List (String × String)) (key v : String) : List (String × String) :=
  ps.filter (fun kv => kv.1 ≠ key) ++ [(key, v)]

/-- One event stored on the destination calendar. -/
structure GEvent where
  id : String
  summary : String
  description : String
  startPayload : TimePayload
  endPayload : TimePayload
  priv : List (String × String)
deriving DecidableEq, Repr

/-- One call issued to the destination API. -/
inductive DestCall where
  | list (timeMin timeMax uid : String)
  | insert (body : GEvent)
  | patch (body : GEvent)
deriving DecidableEq, Repr

/-- True exactly for the two mutation calls (insert and patch). -/
def DestCall.isMutation : DestCall → Bool
  | .list _ _ _ => false
  | _ => true

/-- One log line of the reconciler (ensure_event logs created / updated
/ no-change, carrying the event summary). -/
inductive LogEntry where
  | created (summary : String)
  | updated (summary : String)
  | nochange (summary : String)
deriving DecidableEq, Repr

/-- Result of one ensure_event step: the destination state afterwards,
the destination calls issued, and the log lines emitted. -/
structure EnsureOut where
  dest : List GEvent
  calls : List DestCall
  logs : List LogEntry
deriving DecidableEq, Repr

/-- Window predicate: given timeMin and timeMax, decides whether an
event with the given start/end lies in the queried range. This is
destination-side filtering behavior, kept abstract. -/
def WinPred : Type := String → String → TimePayload → TimePayload → Bool

/-- The destination-side filter of the events().list call in
ensure_event: both private property clauses must match and the event
must be in the window. -/
def gMatches (win : WinPred) (tmin tmax uid : String) (g : GEvent) : Bool :=
  (privGet g.priv "source" == some "ISERV") && (privGet g.priv "uid" == some uid)
    && win tmin tmax g.startPayload g.endPayload

/-- The insert body built in the create branch of ensure_event
(script.py lines 129-141); the destination id is assigned server side
and plays no role in matching, so it is modelled as empty. -/
def mkBody (ev : SrcEvent) : GEvent :=
  ⟨"", ev.summary, ev.description ++ "\n\n[SYNC: ISERV]", ev.startPayload,
    ev.endPayload,
    [("source", "ISERV"), ("uid", ev.uid), ("lastmod", ev.lastmod.getD "")]⟩

/-- The patch body built in the update branch of ensure_event
(script.py lines 149-155), applied to counterpart g: all fields rebuilt
from the record, the private dictionary merged with only lastmod
overwritten. -/
def patchBody (ev : SrcEvent) (g : GEvent) : GEvent :=
  ⟨g.id, ev.summary, ev.description ++ "\n\n[SYNC: ISERV]", ev.startPayload,
    ev.endPayload, privSet g.priv "lastmod" (ev.lastmod.getD "")⟩

/-- Replaces the first element satisfying p by b (the effect of the
patch call, which addresses items[0] by its unique destination id). -/
def patchFirst (p : GEvent → Bool) (b : GEvent) : List GEvent → List GEvent
  | [] => []
  | g :: gs => if p g then b :: gs else g :: patchFirst p b gs

/-- Model of ensure_event (script.py lines 115-159): look the record up
by private metadata within the window (maxResults=2), then create when
nothing is found, patch the first item when the stored lastmod differs
from the record value (None on either side read as ""), and otherwise
do nothing. -/
def ensureEvent (win : WinPred) (tmin tmax : String) (ev : SrcEvent)
    (dest : List GEvent) : EnsureOut :=
  let items := (dest.filter (gMatches win tmin tmax ev.uid)).take 2
  match items with
  | [] =>
      ⟨dest ++ [mkBody ev], [.list tmin tmax ev.uid, .insert (mkBody ev)],
        [.created ev.summary]⟩
  | g :: _ =>
      if ev.lastmod.getD "" ≠ (privGet g.priv "lastmod").getD "" then
        ⟨patchFirst (gMatches win tmin tmax ev.uid) (patchBody ev g) dest,
          [.list tmin tmax ev.uid, .patch (patchBody ev g)],
          [.updated ev.summary]⟩
      else
        ⟨dest, [.list tmin tmax ev.uid], [.nochange ev.summary]⟩

/-- Result of one reconciliation pass over a list of records. -/
structure PassOut where
  dest : List GEvent
  calls : List DestCall
  logs : List LogEntry
  total : Nat
deriving DecidableEq, Repr

/-- One failure-free pass of the main loop over the already normalized
records: each record goes through ensure_event against the destination
state left by the previous one, with the window bounds fixed for the
whole run (script.py lines 193-197). -/
def runPass (win : WinPred) (tmin tmax : String) :
    List SrcEvent → List GEvent → PassOut
  | [], dest => ⟨dest, [], [], 0⟩
  | ev :: rest, dest =>
      let o := ensureEvent win tmin tmax ev dest
      let r := runPass win tmin tmax rest o.dest
      ⟨r.dest, o.calls ++ r.calls, o.logs ++ r.logs, r.total + 1⟩

/-! ## Driver model (script.py: main) -/

/-- Required configuration values, already stripped as at the top of the
script; an empty string models an unset variable. -/
structure Config where
  caldavUrl : String
  caldavUser : String
  caldavPass : String
  googleCalId : String
deriving DecidableEq, Repr

/-- The sanity check of main (script.py lines 163-168): names of the
required variables whose value is falsy, in dict insertion order. -/
def missingEnv (c : Config) : List String :=
  (if c.caldavUrl = "" then ["CALDAV_URL"] else [])
    ++ (if c.caldavUser = "" then ["CALDAV_USER"] else [])
    ++ (if c.caldavPass = "" then ["CALDAV_PASS"] else [])
    ++ (if c.googleCalId = "" then ["GOOGLE_CAL_ID"] else [])

/-- Digits of a decimal literal read as a number; none when empty or
when any character is not a digit. -/
def parseDigits (cs : List Char) : Option Nat :=
  if cs = [] then none
  else if cs.all (fun c => 48 ≤ c.toNat && c.toNat ≤ 57) then
    some (cs.foldl (fun a c => a * 10 + (c.toNat - 48)) 0)
  else none

/-- Model of Python int(str): surrounding whitespace stripped, one
optional sign, then decimal digits; none models the ValueError. -/
def pyInt (s : String) : Option Int :=
  match (pyStrip s).data with
  | '+' :: cs => (parseDigits cs).map (fun n => (n : Int))
  | '-' :: cs => (parseDigits cs).map (fun n => -(n : Int))
  | cs => (parseDigits cs).map (fun n => (n : Int))

/-- Model of int(os.environ.get(key, dflt)) for the two day offsets
(script.py lines 17-18); none models the ValueError on non-numeric text. -/
def envIntCfg (env : List (String × String)) (key dflt : String) : Option Int :=
  pyInt ((privGet env key).getD dflt)

/-- The DAYS_AHEAD setting with its default of 14. -/
def cfgDaysAhead (env : List (String × String)) : Option Int :=
  envIntCfg env "DAYS_AHEAD" "14"

/-- The DAYS_PAST setting with its default of 1. -/
def cfgDaysPast (env : List (String × String)) : Option Int :=
  envIntCfg env "DAYS_PAST" "1"

/-- The sync window of one run (script.py lines 176-180): isoformat
bounds of now minus daysPast days and now plus daysAhead days, computed
once per run. -/
def syncWindow (now : PyDateTime) (daysPast daysAhead : Int) : String × String :=
  (isoformatDT (pyAddDays now (-daysPast)), isoformatDT (pyAddDays now daysAhead))

/-- One failure-free run of main starting from the window computation:
the window bounds are computed once and passed unchanged to every
ensure_event call (script.py lines 176-197). -/
def runSync (win : WinPred) (now : PyDateTime) (daysPast daysAhead : Int)
    (evs : List SrcEvent) (dest : List GEvent) : PassOut :=
  runPass win (syncWindow now daysPast daysAhead).1
    (syncWindow now daysPast daysAhead).2 evs dest

/-! ### Fallible control flow of the main loop

The nested loop of main (script.py lines 194-197) has no per-event
exception handling: an exception raised while reconciling one record, or
while parsing one calendar object, propagates out of the loop to the
top-level handler (lines 201-206), which logs it and exits with code 1.
The collaborator outcomes are injected as Except valued functions. -/

/-- The inner loop over the records of one calendar object: records
reconciled so far and the first error, which stops the loop. -/
def reconLoop (recon : SrcEvent → Except String Unit) :
    List SrcEvent → List SrcEvent × Option String
  | [] => ([], none)
  | ev :: rest =>
      match recon ev with
      | .error e => ([], some e)
      | .ok _ =>
          let r := reconLoop recon rest
          (ev :: r.1, r.2)

/-- The outer loop over the fetched calendar objects: a parse failure or
a reconcile failure aborts everything after it. -/
def objLoop (parse : String → Except String (List SrcEvent))
    (recon : SrcEvent → Except String Unit) :
    List String → List SrcEvent × Option String
  | [] => ([], none)
  | o :: os =>
      match parse o with
      | .error e => ([], some e)
      | .ok evs =>
          match reconLoop recon evs with
          | (ps, some e) => (ps, some e)
          | (ps, none) =>
              let r := objLoop parse recon os
              (ps ++ r.1, r.2)

/-- Outcome of one program run: either the configuration gate fired
(exit code 2, before any client is built or any network call is made),
or the loop ran, reconciling the listed records, and the end-of-run
summary (line 199) was logged exactly when the error slot is empty. -/
inductive RunOutcome where
  | configError (exitCode : Nat) (missing : List String)
  | ran (processed : List SrcEvent) (err : Option String)
deriving DecidableEq, Repr

/-- Model of main with fallible collaborators (script.py lines 161-199):
the configuration check runs first and exits with code 2 when a required
variable is missing; only then does the run proceed to the network. -/
def mainModel (c : Config) (parse : String → Except String (List SrcEvent))
    (recon : SrcEvent → Except String Unit) (objs : List String) : RunOutcome :=
  if missingEnv c ≠ [] then .configError 2 (missingEnv c)
  else
    let r := objLoop parse recon objs
    .ran r.1 r.2

/-! ## Concrete fixtures used by witnesses -/

/-- Window predicate accepting everything, for concrete scenarios. -/
def exWin : WinPred := fun _ _ _ _ => true

/-- A concrete canonical record carrying a fresh last-modified value. -/
def exRecord : SrcEvent :=
  ⟨"u", "s2", "d2", .dateTime "X2", .dateTime "Y2", some "new"⟩

/-- A concrete stored counterpart with a stale lastmod and one extra
private field. -/
def exStored : GEvent :=
  ⟨"id1", "s", "", .dateTime "X", .dateTime "Y",
    [("source", "ISERV"), ("uid", "u"), ("lastmod", "old"), ("extra", "keep")]⟩

/-- A concrete record already in sync with exMatch below. -/
def exSynced : SrcEvent :=
  ⟨"u", "s", "", .dateTime "X", .dateTime "Y", none⟩

/-- A stored counterpart of exSynced with no lastmod field, matching the
empty-string reading. -/
def exMatch : GEvent :=
  ⟨"id1", "s", "", .dateTime "X", .dateTime "Y",
    [("source", "ISERV"), ("uid", "u")]⟩

/-- A second stored duplicate of exMatch under another destination id. -/
def exMatch2 : GEvent :=
  ⟨"id2", "s", "", .dateTime "X", .dateTime "Y",
    [("source", "ISERV"), ("uid", "u")]⟩

/-- A concrete record with an identity key different from exSynced's. -/
def exOther : SrcEvent :=
  ⟨"v", "t", "", .dateTime "Z", .dateTime "W", some "m"⟩

/-- Invariant of claim C1: the destination already holds, as first
lookup match, a counterpart storing the record's lastmod, so that
ensure_event takes the no-op branch. -/
def syncedB (win : WinPred) (tmin tmax : String) (ev : SrcEvent)
    (dest : List GEvent) : Prop :=
  match (dest.filter (gMatches win tmin tmax ev.uid)).take 2 with
  | [] => False
  | g :: _ => ev.lastmod.getD "" = (privGet g.priv "lastmod").getD ""

/-! ## Theorems -/

/-- SHA-1 digests are 160-bit values. -/
theorem sha1Nat_lt (msg : List Nat) : sha1Nat msg < 2 ^ 160 := by
  unfold sha1Nat
  obtain ⟨h0, h1, h2, h3, h4⟩ :=
    (chunks64 (padMessage msg)).foldl processChunk
      (1732584193, 4023233417, 2562383102, 271733878, 3285377520)
  simp only [w32]
  omega

set_option maxRecDepth 10000 in
/-- Validation of the SHA-1 embedding on the standard test vectors. -/
theorem sha1Hex_test_vectors :
    sha1Hex (utf8Bytes "abc") = "a9993e364706816aba3e25717850c26c9cd0d89d"
    ∧ sha1Hex (utf8Bytes "") = "da39a3ee5e6b4b0d3255bfef95601890afd80709"
    ∧ sha1Hex (utf8Bytes "abcdbcdecdefdefgefghfghighijhijkijkljklmklmnlmnomnopnopq")
      = "84983e441c3bd26ebaae4aa1f95129e5e54670f1" :=
  ⟨by decide, by decide, by decide⟩

/-! ## Shared lemmas -/

/-- Right cancellation for string concatenation. -/
theorem string_append_right_cancel {a b c : String} (h : a ++ c = b ++ c) : a = b := by
  have h2 : a.data ++ c.data = b.data ++ c.data := by
    have h3 := congrArg String.data h
    simpa using h3
  exact String.ext ((List.append_left_inj c.data).mp h2)

/-- Left cancellation for string concatenation. -/
theorem string_append_left_cancel {a b c : String} (h : c ++ a = c ++ b) : a = b := by
  have h2 : c.data ++ a.data = c.data ++ b.data := by
    have h3 := congrArg String.data h
    simpa using h3
  exact String.ext ((List.append_right_inj c.data).mp h2)

/-- The identity key of a no-UID event, as normalizeVEvent computes it. -/
theorem normalize_uid_fallback (hostTz : Int) (v : VEvent)
    (h : pyStrip v.uid = "") :
    (normalizeVEvent hostTz v).uid =
      "fallback-" ++ sha1Hex (utf8Bytes
        (pyStrip v.summary ++ pyStrDTV v.dtstart ++ pyStrOptDTV v.dtend)) := by
  simp [normalizeVEvent, h, fallbackKey]

/-! ## Claim C3: identity key derivation -/

/-- C3 (amended): for every parsed source event, the identity key is the
whitespace-stripped UID when that is non-empty; otherwise it is
"fallback-" plus the hex SHA-1 of the UTF-8 bytes of the stripped
summary concatenated with the string forms of start and end. The
fallback is deterministic: identical stripped-summary/start/end text
gives equal keys; and changing exactly one of the three strings always
changes the concatenation that is hashed. -/
theorem identity_key_derivation :
    (∀ (hostTz : Int) (v : VEvent), pyStrip v.uid ≠ "" →
        (normalizeVEvent hostTz v).uid = pyStrip v.uid)
    ∧ (∀ (hostTz : Int) (v : VEvent), pyStrip v.uid = "" →
        (normalizeVEvent hostTz v).uid =
          "fallback-" ++ sha1Hex (utf8Bytes
            (pyStrip v.summary ++ pyStrDTV v.dtstart ++ pyStrOptDTV v.dtend)))
    ∧ (∀ (g1 g2 : Int) (v1 v2 : VEvent),
        pyStrip v1.uid = "" → pyStrip v2.uid = "" →
        pyStrip v1.summary = pyStrip v2.summary →
        pyStrDTV v1.dtstart = pyStrDTV v2.dtstart →
        pyStrOptDTV v1.dtend = pyStrOptDTV v2.dtend →
        (normalizeVEvent g1 v1).uid = (normalizeVEvent g2 v2).uid)
    ∧ (∀ a a2 b c : String, a ≠ a2 → a ++ b ++ c ≠ a2 ++ b ++ c)
    ∧ (∀ a b b2 c : String, b ≠ b2 → a ++ b ++ c ≠ a ++ b2 ++ c)
    ∧ (∀ a b c c2 : String, c ≠ c2 → a ++ b ++ c ≠ a ++ b ++ c2) := by
  refine ⟨?_, ?_, ?_, ?_, ?_, ?_⟩
  · intro hostTz v h
    simp [normalizeVEvent, h]
  · intro hostTz v h
    exact normalize_uid_fallback hostTz v h
  · intro g1 g2 v1 v2 h1 h2 hs hst he
    rw [normalize_uid_fallback g1 v1 h1, normalize_uid_fallback g2 v2 h2, hs, hst, he]
  · intro a a2 b c hne heq
    exact hne (string_append_right_cancel (string_append_right_cancel heq))
  · intro a b b2 c hne heq
    exact hne (string_append_left_cancel (string_append_right_cancel heq))
  · intro a b c c2 hne heq
    exact hne (string_append_left_cancel (string_append_left_cancel
      ((String.append_assoc a b c).symm.trans (heq.trans (String.append_assoc a b c2)))))

/-- Witness for identity_key_derivation: a concrete whitespace-only UID
takes the fallback branch and yields the stated key shape. -/
theorem identity_key_derivation_witness :
    pyStrip ("  " : String) = ""
    ∧ (normalizeVEvent 0
        ⟨"  ", "T", "", .date ⟨2024, 1, 1⟩, none, none, none⟩).uid =
      "fallback-" ++ sha1Hex (utf8Bytes
        (pyStrip "T" ++ pyStrDTV (.date ⟨2024, 1, 1⟩) ++ pyStrOptDTV none)) :=
  ⟨by decide, identity_key_derivation.2.1 0 _ (by decide)⟩

set_option maxRecDepth 10000 in
/-- Counterexample to C3 as stated: changing the summary field (here by
appending a trailing space) does not always change the identity key,
because the script hashes the whitespace-stripped summary. Both events
below carry no UID and identical start/end, differ in the summary
field, and get the same identity key. -/
theorem identity_key_counterexample :
    ("Title " : String) ≠ "Title"
    ∧ (normalizeVEvent 0
        ⟨"", "Title ", "", .date ⟨2024, 1, 1⟩, none, none, none⟩).uid
      = (normalizeVEvent 0
        ⟨"", "Title", "", .date ⟨2024, 1, 1⟩, none, none, none⟩).uid := by
  exact ⟨by decide, by decide⟩

/-! ## Claim C10: date-only last-modified values -/

/-- C10: when the LAST-MODIFIED/DTSTAMP property decodes to a date-only
value, the normalizer still produces a last_modified string, namely the
RFC3339 rendering of midnight UTC on that date. -/
theorem lastmod_date_only (hostTz : Int) (v : VEvent) (d : PyDate)
    (h : (v.lastModified <|> v.dtstamp) = some (DTValue.date d)) :
    (normalizeVEvent hostTz v).lastmod =
      some (pad4 d.year.toNat ++ "-" ++ pad2 d.month ++ "-" ++ pad2 d.day
        ++ "T00:00:00+00:00") := by
  have p0 : pad2 0 = "00" := rfl
  have r0 : renderOffset 0 = "+00:00" := rfl
  simp [normalizeVEvent, h, lastmodIso, isoformatDT, isoformatSep, p0, r0,
    String.append_assoc]

/-- Witness for lastmod_date_only at the example of the claim: the date
2024-03-01 becomes 2024-03-01T00:00:00+00:00. -/
theorem lastmod_date_only_witness :
    (normalizeVEvent 0
      ⟨"u", "", "", .date ⟨2024, 3, 1⟩, none, none,
        some (.date ⟨2024, 3, 1⟩)⟩).lastmod
      = some "2024-03-01T00:00:00+00:00" :=
  (lastmod_date_only 0
    ⟨"u", "", "", .date ⟨2024, 3, 1⟩, none, none, some (.date ⟨2024, 3, 1⟩)⟩
    ⟨2024, 3, 1⟩ rfl).trans (by decide)

/-! ## Claim C5: timezone handling of date-time values -/

/-- C5 is refuted on the lastmod path: parse_vevents calls
lm.astimezone(timezone.utc) on the decoded LAST-MODIFIED value without
the naive guard that to_rfc3339 applies, so a timezone-naive timestamp
is read in the system timezone, not as UTC. With the host at UTC+02:00
the naive wall-clock 2024-01-01 12:00:00 normalizes to 10:00 UTC, while
the claim demands 12:00 UTC on every host; DTSTART handled through
to_rfc3339 is host independent, as the contrast below shows. -/
theorem naive_lastmod_host_dependent :
    (normalizeVEvent 7200
        ⟨"u", "s", "", .dt ⟨2024, 1, 1, 12, 0, 0, 0, none⟩, none,
          some (.dt ⟨2024, 1, 1, 12, 0, 0, 0, none⟩), none⟩).lastmod
      = some "2024-01-01T10:00:00+00:00"
    ∧ (normalizeVEvent 0
        ⟨"u", "s", "", .dt ⟨2024, 1, 1, 12, 0, 0, 0, none⟩, none,
          some (.dt ⟨2024, 1, 1, 12, 0, 0, 0, none⟩), none⟩).lastmod
      = some "2024-01-01T12:00:00+00:00"
    ∧ (normalizeVEvent 7200
        ⟨"u", "s", "", .dt ⟨2024, 1, 1, 12, 0, 0, 0, none⟩, none,
          some (.dt ⟨2024, 1, 1, 12, 0, 0, 0, none⟩), none⟩).startPayload
      = (normalizeVEvent 0
        ⟨"u", "s", "", .dt ⟨2024, 1, 1, 12, 0, 0, 0, none⟩, none,
          some (.dt ⟨2024, 1, 1, 12, 0, 0, 0, none⟩), none⟩).startPayload := by
  refine ⟨by decide, by decide, by decide⟩

/-! ## Claim C4: end synthesis when DTEND is absent -/

/-- C4: for every source event with no DTEND, a timed DTSTART gets the
end start + timedelta(hours=1), converted like every timed value by
to_rfc3339, and a date-only DTSTART gets an all-day end on the same
calendar date; on the claim's example, start 2024-01-01T10:00:00Z
synthesizes end 2024-01-01T11:00:00Z. -/
theorem end_synthesis :
    (∀ (hostTz : Int) (v : VEvent) (t : PyDateTime),
        v.dtend = none → v.dtstart = .dt t →
        (normalizeVEvent hostTz v).endPayload =
          .dateTime (to_rfc3339dt (pyAddSeconds t 3600)))
    ∧ (∀ (hostTz : Int) (v : VEvent) (d : PyDate),
        v.dtend = none → v.dtstart = .date d →
        (normalizeVEvent hostTz v).endPayload = .date (isoformatDate d))
    ∧ (normalizeVEvent 0
        ⟨"u", "s", "", .dt ⟨2024, 1, 1, 10, 0, 0, 0, some 0⟩, none, none,
          none⟩).endPayload
      = .dateTime "2024-01-01T11:00:00+00:00"
    ∧ (normalizeVEvent 0
        ⟨"u", "s", "", .date ⟨2024, 3, 1⟩, none, none, none⟩).endPayload
      = .date "2024-03-01" := by
  refine ⟨?_, ?_, by decide, by decide⟩
  · intro hostTz v t he hs
    simp [normalizeVEvent, he, hs]
  · intro hostTz v d he hs
    simp [normalizeVEvent, he, hs]

/-- Witness for end_synthesis: the timed branch applied at the concrete
event of the claim. -/
theorem end_synthesis_witness :
    (normalizeVEvent 0
        ⟨"u", "s", "", .dt ⟨2024, 1, 1, 10, 0, 0, 0, some 0⟩, none, none,
          none⟩).endPayload
      = .dateTime (to_rfc3339dt (pyAddSeconds ⟨2024, 1, 1, 10, 0, 0, 0, some 0⟩ 3600)) :=
  end_synthesis.1 0
    ⟨"u", "s", "", .dt ⟨2024, 1, 1, 10, 0, 0, 0, some 0⟩, none, none, none⟩
    ⟨2024, 1, 1, 10, 0, 0, 0, some 0⟩ rfl rfl

/-! ## Dictionary lemmas for the private metadata -/

/-- Lookup distributes over append, preferring the left list. -/
theorem privGet_append (l1 l2 : List (String × String)) (k : String) :
    privGet (l1 ++ l2) k =
      match privGet l1 k with
      | some v => some v
      | none => privGet l2 k := by
  induction l1 with
  | nil => simp [privGet]
  | cons p rest ih =>
      by_cases h : p.1 = k
      · simp [privGet, h]
      · simp [privGet, h, ih]

/-- Dropping the entries keyed k makes a lookup of k fail. -/
theorem privGet_filter_self (ps : List (String × String)) (k : String) :
    privGet (ps.filter (fun kv => kv.1 ≠ k)) k = none := by
  induction ps with
  | nil => rfl
  | cons p rest ih =>
      by_cases h : p.1 = k
      · rw [List.filter_cons_of_neg (by simp [h])]
        exact ih
      · rw [List.filter_cons_of_pos (by simp [h]), privGet, if_neg h]
        exact ih

/-- Dropping the entries keyed k does not change a lookup of another key. -/
theorem privGet_filter_ne (ps : List (String × String)) {k k2 : String}
    (h : k2 ≠ k) :
    privGet (ps.filter (fun kv => kv.1 ≠ k)) k2 = privGet ps k2 := by
  induction ps with
  | nil => rfl
  | cons p rest ih =>
      by_cases hp : p.1 = k
      · have hne : ¬ p.1 = k2 := by rw [hp]; exact fun hh => h hh.symm
        rw [List.filter_cons_of_neg (by simp [hp]), privGet, if_neg hne]
        exact ih
      · rw [List.filter_cons_of_pos (by simp [hp]), privGet, privGet]
        by_cases hp2 : p.1 = k2
        · rw [if_pos hp2, if_pos hp2]
        · rw [if_neg hp2, if_neg hp2]
          exact ih

/-- The dict merge with an overriding key stores that key. -/
theorem privGet_privSet_self (ps : List (String × String)) (k v : String) :
    privGet (privSet ps k v) k = some v := by
  rw [privSet, privGet_append, privGet_filter_self]
  simp [privGet]

/-- The dict merge with an overriding key leaves every other key alone. -/
theorem privGet_privSet_ne (ps : List (String × String)) {k k2 : String}
    (v : String) (h : k2 ≠ k) :
    privGet (privSet ps k v) k2 = privGet ps k2 := by
  rw [privSet, privGet_append, privGet_filter_ne ps h]
  cases hg : privGet ps k2 with
  | some w => rfl
  | none => rw [privGet, if_neg (fun hh => h hh.symm)]; rfl

/-! ## Claim C2: the three-way reconciliation decision -/

/-- C2: the reconciler takes exactly one of three actions, decided by the
lookup result and one string comparison: an empty lookup issues exactly
one insert, a found counterpart with a differing stored lastmod (missing
values on either side read as the empty string) issues exactly one
patch, and equal strings issue no mutation at all. -/
theorem reconciler_three_way (win : WinPred) (tmin tmax : String)
    (ev : SrcEvent) (dest : List GEvent) :
    ((dest.filter (gMatches win tmin tmax ev.uid)).take 2 = [] →
      (ensureEvent win tmin tmax ev dest).calls
        = [.list tmin tmax ev.uid, .insert (mkBody ev)])
    ∧ (∀ g rest,
        (dest.filter (gMatches win tmin tmax ev.uid)).take 2 = g :: rest →
        ev.lastmod.getD "" ≠ (privGet g.priv "lastmod").getD "" →
        (ensureEvent win tmin tmax ev dest).calls
          = [.list tmin tmax ev.uid, .patch (patchBody ev g)])
    ∧ (∀ g rest,
        (dest.filter (gMatches win tmin tmax ev.uid)).take 2 = g :: rest →
        ev.lastmod.getD "" = (privGet g.priv "lastmod").getD "" →
        (ensureEvent win tmin tmax ev dest).calls
          = [.list tmin tmax ev.uid]) := by
  refine ⟨?_, ?_, ?_⟩
  · intro h
    simp [ensureEvent, h]
  · intro g rest h hne
    simp [ensureEvent, h, hne]
  · intro g rest h heq
    simp [ensureEvent, h, heq]

/-- Witness for reconciler_three_way: on an empty destination the create
branch issues exactly the lookup and one insert. -/
theorem reconciler_three_way_witness :
    (ensureEvent (fun _ _ _ _ => true) "tmin" "tmax"
        ⟨"u", "s", "d", .dateTime "X", .dateTime "Y", none⟩ []).calls
      = [.list "tmin" "tmax" "u",
         .insert (mkBody ⟨"u", "s", "d", .dateTime "X", .dateTime "Y", none⟩)] :=
  (reconciler_three_way (fun _ _ _ _ => true) "tmin" "tmax"
    ⟨"u", "s", "d", .dateTime "X", .dateTime "Y", none⟩ []).1 rfl

/-! ## Claim C7: duplicate lookup results -/

/-- C7 (amended): when the capped lookup returns a duplicate, the first
returned item alone determines the reconciler's behavior — two
destinations whose lookups agree on the first item produce identical
calls and identical log lines — and the function is total, so the run
never crashes over the duplicate. No anomaly is logged (see the
counterexample theorem for the log contents). -/
theorem duplicate_first_item_decides (win : WinPred) (tmin tmax : String)
    (ev : SrcEvent) (d1 d2 : List GEvent) (g : GEvent) (t1 t2 : List GEvent)
    (h1 : (d1.filter (gMatches win tmin tmax ev.uid)).take 2 = g :: t1)
    (h2 : (d2.filter (gMatches win tmin tmax ev.uid)).take 2 = g :: t2) :
    (ensureEvent win tmin tmax ev d1).calls
      = (ensureEvent win tmin tmax ev d2).calls
    ∧ (ensureEvent win tmin tmax ev d1).logs
      = (ensureEvent win tmin tmax ev d2).logs := by
  by_cases hlm : ev.lastmod.getD "" ≠ (privGet g.priv "lastmod").getD ""
  · constructor <;> simp [ensureEvent, h1, h2, hlm]
  · constructor <;> simp [ensureEvent, h1, h2, hlm]

/-- Witness for duplicate_first_item_decides: a destination holding two
events matching the same identity key behaves exactly like one holding
only the first of them. -/
theorem duplicate_first_item_decides_witness :
    (ensureEvent exWin "a" "b" exSynced [exMatch, exMatch2]).calls
      = (ensureEvent exWin "a" "b" exSynced [exMatch]).calls :=
  (duplicate_first_item_decides exWin "a" "b" exSynced
    [exMatch, exMatch2] [exMatch] exMatch [exMatch2] []
    (by decide) (by decide)).1

/-- Counterexample to C7 as stated: with two stored events matching the
same identity key, ensure_event emits exactly the ordinary no-change
debug line — the same log output as the duplicate-free case — so no
integrity anomaly is logged. -/
theorem duplicate_no_anomaly_logged :
    (ensureEvent exWin "a" "b" exSynced [exMatch, exMatch2]).logs
      = [.nochange "s"]
    ∧ (ensureEvent exWin "a" "b" exSynced [exMatch]).logs
      = [.nochange "s"] := by
  exact ⟨by decide, by decide⟩

/-! ## Claim C8: the patch body preserves the other private fields -/

/-- C8: every patch call the reconciler issues carries a private
dictionary equal to the counterpart's stored one on every key other
than lastmod (in particular source and uid keep their stored values),
with lastmod alone overwritten by the record's value or the empty
string. -/
theorem patch_preserves_private_fields (win : WinPred) (tmin tmax : String)
    (ev : SrcEvent) (dest : List GEvent) (body : GEvent)
    (hmem : DestCall.patch body ∈ (ensureEvent win tmin tmax ev dest).calls) :
    ∃ g rest, (dest.filter (gMatches win tmin tmax ev.uid)).take 2 = g :: rest
      ∧ body = patchBody ev g
      ∧ (∀ k, k ≠ "lastmod" → privGet body.priv k = privGet g.priv k)
      ∧ privGet body.priv "lastmod" = some (ev.lastmod.getD "") := by
  rcases heq : (dest.filter (gMatches win tmin tmax ev.uid)).take 2 with _ | ⟨g, rest⟩
  · simp [ensureEvent, heq] at hmem
  · by_cases hlm : ev.lastmod.getD "" ≠ (privGet g.priv "lastmod").getD ""
    · have hcalls : (ensureEvent win tmin tmax ev dest).calls
          = [.list tmin tmax ev.uid, .patch (patchBody ev g)] := by
        simp [ensureEvent, heq, hlm]
      rw [hcalls] at hmem
      simp only [List.mem_cons, List.not_mem_nil, or_false] at hmem
      have hbody : body = patchBody ev g := by
        rcases hmem with h1 | h2
        · exact absurd h1 (by simp)
        · injection h2 with hh
      subst hbody
      exact ⟨g, rest, rfl, rfl,
        fun k hk => privGet_privSet_ne g.priv _ hk,
        privGet_privSet_self g.priv _ _⟩
    · have hcalls : (ensureEvent win tmin tmax ev dest).calls
          = [.list tmin tmax ev.uid] := by
        simp [ensureEvent, heq, hlm]
      rw [hcalls] at hmem
      simp at hmem

/-- Witness for patch_preserves_private_fields: a concrete update with an
extra stored private field, preserved by the patch while lastmod is
overwritten. -/
theorem patch_preserves_private_fields_witness :
    ∃ g rest,
      (([exStored] : List GEvent).filter
          (gMatches exWin "a" "b" exRecord.uid)).take 2 = g :: rest
      ∧ patchBody exRecord exStored = patchBody exRecord g
      ∧ (∀ k, k ≠ "lastmod" →
          privGet (patchBody exRecord exStored).priv k = privGet g.priv k)
      ∧ privGet (patchBody exRecord exStored).priv "lastmod"
          = some (exRecord.lastmod.getD "") :=
  patch_preserves_private_fields exWin "a" "b" exRecord [exStored]
    (patchBody exRecord exStored) (by decide)

/-! ## Claim C9: the sync window -/

/-- List calls of one ensure_event step carry its window bounds. -/
theorem ensureEvent_list_calls (win : WinPred) (tmin tmax : String)
    (ev : SrcEvent) (dest : List GEvent) (t1 t2 u : String)
    (h : DestCall.list t1 t2 u ∈ (ensureEvent win tmin tmax ev dest).calls) :
    t1 = tmin ∧ t2 = tmax := by
  rcases heq : (dest.filter (gMatches win tmin tmax ev.uid)).take 2 with _ | ⟨g, rest⟩
  · simp [ensureEvent, heq] at h
    exact ⟨h.1, h.2.1⟩
  · by_cases hlm : ev.lastmod.getD "" ≠ (privGet g.priv "lastmod").getD ""
    · simp [ensureEvent, heq, hlm] at h
      exact ⟨h.1, h.2.1⟩
    · simp [ensureEvent, heq, hlm] at h
      exact ⟨h.1, h.2.1⟩

/-- List calls anywhere in a pass carry the pass's window bounds. -/
theorem runPass_list_calls (win : WinPred) (tmin tmax : String)
    (evs : List SrcEvent) (dest : List GEvent) (t1 t2 u : String)
    (h : DestCall.list t1 t2 u ∈ (runPass win tmin tmax evs dest).calls) :
    t1 = tmin ∧ t2 = tmax := by
  induction evs generalizing dest with
  | nil => simp [runPass] at h
  | cons ev rest ih =>
      simp only [runPass, List.mem_append] at h
      rcases h with h | h
      · exact ensureEvent_list_calls win tmin tmax ev dest t1 t2 u h
      · exact ih _ h

/-- C9: the day offsets default to DAYS_PAST=1 and DAYS_AHEAD=14; the
window for now = 2024-06-10T00:00:00Z with those offsets is
[2024-06-09T00:00:00 UTC, 2024-06-24T00:00:00 UTC]; and every
destination lookup of a run carries exactly the bounds computed once
from now and the offsets. -/
theorem sync_window_correct :
    cfgDaysPast [] = some 1
    ∧ cfgDaysAhead [] = some 14
    ∧ syncWindow ⟨2024, 6, 10, 0, 0, 0, 0, some 0⟩ 1 14
        = ("2024-06-09T00:00:00+00:00", "2024-06-24T00:00:00+00:00")
    ∧ (∀ (win : WinPred) (now : PyDateTime) (p a : Int) (evs : List SrcEvent)
        (dest : List GEvent) (t1 t2 u : String),
        DestCall.list t1 t2 u ∈ (runSync win now p a evs dest).calls →
        t1 = (syncWindow now p a).1 ∧ t2 = (syncWindow now p a).2) := by
  refine ⟨by decide, by decide, by decide, ?_⟩
  intro win now p a evs dest t1 t2 u h
  exact runPass_list_calls win _ _ evs dest t1 t2 u h

/-- Witness for sync_window_correct: in a concrete run the one lookup
issued carries the bounds of the computed window. -/
theorem sync_window_correct_witness :
    "2024-06-09T00:00:00+00:00"
      = (syncWindow ⟨2024, 6, 10, 0, 0, 0, 0, some 0⟩ 1 14).1
    ∧ "2024-06-24T00:00:00+00:00"
      = (syncWindow ⟨2024, 6, 10, 0, 0, 0, 0, some 0⟩ 1 14).2 :=
  sync_window_correct.2.2.2 exWin ⟨2024, 6, 10, 0, 0, 0, 0, some 0⟩ 1 14
    [exSynced] [] "2024-06-09T00:00:00+00:00" "2024-06-24T00:00:00+00:00"
    "u" (by decide)

/-! ## Claim C6: failure propagation -/

/-- C6 (amended): the script has no per-event exception handling, so a
failure while reconciling one record aborts the run at that record:
the records before it are the only ones processed and the error is
carried out (so the end-of-run summary is not logged); the
configuration gate alone exits, with code 2, before any network call. -/
theorem failure_propagation :
    (∀ (recon : SrcEvent → Except String Unit) (pre post : List SrcEvent)
        (ev : SrcEvent) (err : String),
      (∀ x ∈ pre, recon x = .ok ()) → recon ev = .error err →
      reconLoop recon (pre ++ ev :: post) = (pre, some err))
    ∧ (∀ (c : Config) (parse : String → Except String (List SrcEvent))
        (recon : SrcEvent → Except String Unit) (objs : List String),
        missingEnv c ≠ [] →
        mainModel c parse recon objs = .configError 2 (missingEnv c))
    ∧ (∀ (c : Config) (parse : String → Except String (List SrcEvent))
        (recon : SrcEvent → Except String Unit) (o : String)
        (pre post : List SrcEvent) (ev : SrcEvent) (err : String),
        missingEnv c = [] → parse o = .ok (pre ++ ev :: post) →
        (∀ x ∈ pre, recon x = .ok ()) → recon ev = .error err →
        mainModel c parse recon [o] = .ran pre (some err)) := by
  have habort : ∀ (recon : SrcEvent → Except String Unit)
      (pre post : List SrcEvent) (ev : SrcEvent) (err : String),
      (∀ x ∈ pre, recon x = .ok ()) → recon ev = .error err →
      reconLoop recon (pre ++ ev :: post) = (pre, some err) := by
    intro recon pre post ev err hpre hev
    induction pre with
    | nil => simp [reconLoop, hev]
    | cons x rest ih =>
        have hx : recon x = .ok () := hpre x (List.mem_cons_self x rest)
        have hrest : ∀ y ∈ rest, recon y = .ok () :=
          fun y hy => hpre y (List.mem_cons_of_mem x hy)
        simp [reconLoop, hx, ih hrest]
  refine ⟨habort, ?_, ?_⟩
  · intro c parse recon objs hmiss
    simp [mainModel, hmiss]
  · intro c parse recon o pre post ev err hmiss hparse hpre hev
    simp [mainModel, hmiss, objLoop, hparse, habort recon pre post ev err hpre hev]

/-- Witness for failure_propagation: a concrete run in which the first
record's reconciliation raises; the second record is never processed and
the error survives to the top, so no summary is logged. -/
theorem failure_propagation_witness :
    mainModel ⟨"x", "x", "x", "x"⟩
      (fun _ => .ok [⟨"bad", "s", "", .dateTime "X", .dateTime "Y", none⟩,
        ⟨"good", "s", "", .dateTime "X", .dateTime "Y", none⟩])
      (fun ev => if ev.uid = "bad" then .error "boom" else .ok ()) ["o"]
      = .ran [] (some "boom") :=
  failure_propagation.2.2 ⟨"x", "x", "x", "x"⟩
    (fun _ => .ok [⟨"bad", "s", "", .dateTime "X", .dateTime "Y", none⟩,
      ⟨"good", "s", "", .dateTime "X", .dateTime "Y", none⟩])
    (fun ev => if ev.uid = "bad" then .error "boom" else .ok ()) "o"
    [] [⟨"good", "s", "", .dateTime "X", .dateTime "Y", none⟩]
    ⟨"bad", "s", "", .dateTime "X", .dateTime "Y", none⟩ "boom"
    rfl rfl (by simp) rfl

/-- Counterexample to C6 as stated: with two records in one calendar
object and a destination failure on the first, the run aborts — the
second record is not processed (the processed list is empty) and the
error reaches the top-level handler, so the summary is not reported. -/
theorem per_event_failure_counterexample :
    mainModel ⟨"x", "x", "x", "x"⟩
      (fun _ => .ok [⟨"bad", "s", "", .dateTime "X", .dateTime "Y", none⟩,
        ⟨"good", "s", "", .dateTime "X", .dateTime "Y", none⟩])
      (fun ev => if ev.uid = "bad" then .error "boom" else .ok ())
      ["o"]
      = .ran [] (some "boom")
    ∧ (⟨"good", "s", "", .dateTime "X", .dateTime "Y", none⟩ : SrcEvent)
        ∉ ([] : List SrcEvent) := by
  exact ⟨by decide, by decide⟩

/-! ## Claim C1: idempotence of the reconciliation pass

The proof works through an invariant syncedB: the destination holds a
first lookup match for the record whose stored lastmod equals the
record's. One ensure_event step establishes the invariant for its own
record and preserves it for every record with a different identity key;
a record whose invariant holds takes the no-op branch. -/

/-- The head of a nonempty filter result satisfies the filter. -/
theorem filter_head_sat {p : GEvent → Bool} {l : List GEvent} {g : GEvent}
    {gs : List GEvent} (h : l.filter p = g :: gs) : p g = true := by
  induction l with
  | nil => simp at h
  | cons a rest ih =>
      by_cases hp : p a = true
      · rw [List.filter_cons_of_pos hp] at h
        cases h
        exact hp
      · rw [List.filter_cons_of_neg (by simpa using hp)] at h
        exact ih h

/-- Replacing the first filter match by an element that still matches
replaces the head of the filter result. -/
theorem filter_patchFirst_same {p : GEvent → Bool} {l : List GEvent}
    {g b : GEvent} {gs : List GEvent}
    (h : l.filter p = g :: gs) (hb : p b = true) :
    (patchFirst p b l).filter p = b :: gs := by
  induction l with
  | nil => simp at h
  | cons a rest ih =>
      by_cases hp : p a = true
      · rw [List.filter_cons_of_pos hp] at h
        cases h
        rw [patchFirst, if_pos hp, List.filter_cons_of_pos hb]
      · rw [List.filter_cons_of_neg (by simpa using hp)] at h
        rw [patchFirst, if_neg (by simpa using hp),
          List.filter_cons_of_neg (by simpa using hp)]
        exact ih h

/-- Replacing the first p-match does not change the q-filter when every
p-match, and the replacement, fail q. -/
theorem filter_patchFirst_other {p q : GEvent → Bool} {b : GEvent}
    (l : List GEvent)
    (hpq : ∀ x, p x = true → q x = false) (hb : q b = false) :
    (patchFirst p b l).filter q = l.filter q := by
  induction l with
  | nil => rfl
  | cons a rest ih =>
      by_cases hp : p a = true
      · rw [patchFirst, if_pos hp, List.filter_cons_of_neg (by simp [hb]),
          List.filter_cons_of_neg (by simp [hpq a hp])]
      · rw [patchFirst, if_neg (by simpa using hp)]
        by_cases hq : q a = true
        · rw [List.filter_cons_of_pos hq, List.filter_cons_of_pos hq, ih]
        · rw [List.filter_cons_of_neg (by simpa using hq),
            List.filter_cons_of_neg (by simpa using hq)]
          exact ih

/-- Appending an element that fails the filter leaves it unchanged. -/
theorem filter_append_fail {q : GEvent → Bool} (l : List GEvent) {b : GEvent}
    (hb : q b = false) : (l ++ [b]).filter q = l.filter q := by
  rw [List.filter_append, List.filter_cons_of_neg (by simp [hb])]
  simp

/-- A two-element take equal to a cons comes from a cons. -/
theorem take_two_cons {l : List GEvent} {g : GEvent} {gs : List GEvent}
    (h : l.take 2 = g :: gs) : ∃ l2, l = g :: l2 ∧ gs = l2.take 1 := by
  cases l with
  | nil => simp at h
  | cons a l2 =>
      have h2 : a = g ∧ l2.take 1 = gs := by simpa using h
      exact ⟨l2, by rw [h2.1], h2.2.symm⟩

/-- Decomposition of a successful destination match. -/
theorem gMatches_eq_true {win : WinPred} {tmin tmax u : String} {g : GEvent} :
    gMatches win tmin tmax u g = true ↔
      privGet g.priv "source" = some "ISERV"
        ∧ privGet g.priv "uid" = some u
        ∧ win tmin tmax g.startPayload g.endPayload = true := by
  simp [gMatches, Bool.and_eq_true, beq_iff_eq, and_assoc]

/-- The insert body stores source = ISERV. -/
theorem privGet_mkBody_source (ev : SrcEvent) :
    privGet (mkBody ev).priv "source" = some "ISERV" := by
  rw [mkBody, privGet, if_pos rfl]

/-- The insert body stores the record's identity key. -/
theorem privGet_mkBody_uid (ev : SrcEvent) :
    privGet (mkBody ev).priv "uid" = some ev.uid := by
  rw [mkBody, privGet, if_neg (by decide), privGet, if_pos rfl]

/-- The insert body stores the record's lastmod or the empty string. -/
theorem privGet_mkBody_lastmod (ev : SrcEvent) :
    privGet (mkBody ev).priv "lastmod" = some (ev.lastmod.getD "") := by
  rw [mkBody, privGet, if_neg (by decide), privGet, if_neg (by decide),
    privGet, if_pos rfl]

/-- A freshly inserted body matches its own record's lookup whenever the
record's times lie in the window. -/
theorem gMatches_mkBody (win : WinPred) (tmin tmax : String) (ev : SrcEvent)
    (hw : win tmin tmax ev.startPayload ev.endPayload = true) :
    gMatches win tmin tmax ev.uid (mkBody ev) = true :=
  gMatches_eq_true.mpr ⟨privGet_mkBody_source ev, privGet_mkBody_uid ev, hw⟩

/-- The patch body keeps every private field other than lastmod. -/
theorem privGet_patchBody_ne (ev : SrcEvent) (g : GEvent) {k : String}
    (hk : k ≠ "lastmod") :
    privGet (patchBody ev g).priv k = privGet g.priv k :=
  privGet_privSet_ne g.priv _ hk

/-- The patch body stores the record's lastmod or the empty string. -/
theorem privGet_patchBody_lastmod (ev : SrcEvent) (g : GEvent) :
    privGet (patchBody ev g).priv "lastmod" = some (ev.lastmod.getD "") :=
  privGet_privSet_self g.priv _ _

/-- A patched counterpart still matches the record's lookup whenever the
record's times lie in the window. -/
theorem gMatches_patchBody {win : WinPred} {tmin tmax u : String}
    (ev : SrcEvent) {g : GEvent}
    (hg : gMatches win tmin tmax u g = true)
    (hw : win tmin tmax ev.startPayload ev.endPayload = true) :
    gMatches win tmin tmax u (patchBody ev g) = true := by
  obtain ⟨hs, hu, _⟩ := gMatches_eq_true.mp hg
  refine gMatches_eq_true.mpr ⟨?_, ?_, hw⟩
  · rw [privGet_patchBody_ne ev g (by decide)]
    exact hs
  · rw [privGet_patchBody_ne ev g (by decide)]
    exact hu

/-- An event whose stored uid entry names another identity key never
matches. -/
theorem gMatches_false_of_uid_entry {win : WinPred} {tmin tmax u u2 : String}
    {g : GEvent} (hne : u2 ≠ u) (hu : privGet g.priv "uid" = some u2) :
    gMatches win tmin tmax u g = false := by
  cases hq : gMatches win tmin tmax u g with
  | false => rfl
  | true =>
      obtain ⟨_, hu2, _⟩ := gMatches_eq_true.mp hq
      rw [hu] at hu2
      exact absurd (Option.some.inj hu2) hne

/-- The invariant only reads the destination through the lookup. -/
theorem syncedB_congr_filter {win : WinPred} {tmin tmax : String}
    {ev : SrcEvent} {d1 d2 : List GEvent}
    (h : d1.filter (gMatches win tmin tmax ev.uid)
      = d2.filter (gMatches win tmin tmax ev.uid)) :
    syncedB win tmin tmax ev d1 ↔ syncedB win tmin tmax ev d2 := by
  unfold syncedB
  rw [h]

/-- A record whose invariant holds takes the no-op branch: the state is
unchanged and only the lookup call and the no-change line are emitted. -/
theorem ensure_noop_of_synced {win : WinPred} {tmin tmax : String}
    {ev : SrcEvent} {dest : List GEvent}
    (h : syncedB win tmin tmax ev dest) :
    ensureEvent win tmin tmax ev dest
      = ⟨dest, [.list tmin tmax ev.uid], [.nochange ev.summary]⟩ := by
  unfold syncedB at h
  rcases heq : (dest.filter (gMatches win tmin tmax ev.uid)).take 2 with _ | ⟨g, rest⟩
  · rw [heq] at h
    exact h.elim
  · rw [heq] at h
    have h2 : ev.lastmod.getD "" = (privGet g.priv "lastmod").getD "" := h
    simp [ensureEvent, heq, h2]

/-- One ensure_event step establishes the invariant for its own record,
given that the record's times lie in the lookup window. -/
theorem ensure_establishes_synced {win : WinPred} {tmin tmax : String}
    (ev : SrcEvent) (dest : List GEvent)
    (hw : win tmin tmax ev.startPayload ev.endPayload = true) :
    syncedB win tmin tmax ev (ensureEvent win tmin tmax ev dest).dest := by
  rcases heq : (dest.filter (gMatches win tmin tmax ev.uid)).take 2 with _ | ⟨g, rest⟩
  · have hnil : dest.filter (gMatches win tmin tmax ev.uid) = [] := by
      rcases List.take_eq_nil_iff.mp heq with h | h
      · exact absurd h (by decide)
      · exact h
    have hdest : (ensureEvent win tmin tmax ev dest).dest = dest ++ [mkBody ev] := by
      simp [ensureEvent, heq]
    rw [hdest]
    unfold syncedB
    have hfil : (dest ++ [mkBody ev]).filter (gMatches win tmin tmax ev.uid)
        = [mkBody ev] := by
      rw [List.filter_append, hnil,
        List.filter_cons_of_pos (gMatches_mkBody win tmin tmax ev hw)]
      simp
    rw [hfil]
    simp [privGet_mkBody_lastmod]
  · obtain ⟨l2, hl, hrest⟩ := take_two_cons heq
    have hpg : gMatches win tmin tmax ev.uid g = true := filter_head_sat hl
    by_cases hlm : ev.lastmod.getD "" ≠ (privGet g.priv "lastmod").getD ""
    · have hdest : (ensureEvent win tmin tmax ev dest).dest
          = patchFirst (gMatches win tmin tmax ev.uid) (patchBody ev g) dest := by
        simp [ensureEvent, heq, hlm]
      rw [hdest]
      unfold syncedB
      rw [filter_patchFirst_same hl (gMatches_patchBody ev hpg hw)]
      simp [privGet_patchBody_lastmod]
    · have hdest : (ensureEvent win tmin tmax ev dest).dest = dest := by
        simp [ensureEvent, heq, hlm]
      rw [hdest]
      unfold syncedB
      rw [heq]
      exact not_ne_iff.mp hlm

/-- One ensure_event step for another record preserves the invariant,
provided the two identity keys differ. -/
theorem ensure_preserves_synced {win : WinPred} {tmin tmax : String}
    {ev ev2 : SrcEvent} (dest : List GEvent)
    (hne : ev2.uid ≠ ev.uid)
    (h : syncedB win tmin tmax ev dest) :
    syncedB win tmin tmax ev (ensureEvent win tmin tmax ev2 dest).dest := by
  have hmain : (ensureEvent win tmin tmax ev2 dest).dest.filter
        (gMatches win tmin tmax ev.uid)
      = dest.filter (gMatches win tmin tmax ev.uid) := by
    rcases heq : (dest.filter (gMatches win tmin tmax ev2.uid)).take 2 with _ | ⟨g, rest⟩
    · have hdest : (ensureEvent win tmin tmax ev2 dest).dest
          = dest ++ [mkBody ev2] := by
        simp [ensureEvent, heq]
      rw [hdest]
      exact filter_append_fail dest
        (gMatches_false_of_uid_entry hne (privGet_mkBody_uid ev2))
    · obtain ⟨l2, hl, hrest⟩ := take_two_cons heq
      have hpg : gMatches win tmin tmax ev2.uid g = true := filter_head_sat hl
      have hu2 : privGet g.priv "uid" = some ev2.uid :=
        (gMatches_eq_true.mp hpg).2.1
      by_cases hlm : ev2.lastmod.getD "" ≠ (privGet g.priv "lastmod").getD ""
      · have hdest : (ensureEvent win tmin tmax ev2 dest).dest
            = patchFirst (gMatches win tmin tmax ev2.uid) (patchBody ev2 g) dest := by
          simp [ensureEvent, heq, hlm]
        rw [hdest]
        apply filter_patchFirst_other
        · intro x hx
          exact gMatches_false_of_uid_entry hne (gMatches_eq_true.mp hx).2.1
        · apply gMatches_false_of_uid_entry hne
          rw [privGet_patchBody_ne ev2 g (by decide)]
          exact hu2
      · have hdest : (ensureEvent win tmin tmax ev2 dest).dest = dest := by
          simp [ensureEvent, heq, hlm]
        rw [hdest]
  exact (syncedB_congr_filter hmain).mpr h

/-- A whole pass over records with other identity keys preserves the
invariant. -/
theorem runPass_preserves_synced {win : WinPred} {tmin tmax : String}
    {ev : SrcEvent} (evs : List SrcEvent) (dest : List GEvent)
    (hne : ∀ e ∈ evs, e.uid ≠ ev.uid)
    (h : syncedB win tmin tmax ev dest) :
    syncedB win tmin tmax ev (runPass win tmin tmax evs dest).dest := by
  induction evs generalizing dest with
  | nil => simpa [runPass] using h
  | cons e rest ih =>
      exact ih (ensureEvent win tmin tmax e dest).dest
        (fun x hx => hne x (List.mem_cons_of_mem e hx))
        (ensure_preserves_synced dest (hne e (List.mem_cons_self e rest)) h)

/-- After one pass over pairwise-distinct in-window records, the
invariant holds for every one of them. -/
theorem runPass_all_synced {win : WinPred} {tmin tmax : String}
    (evs : List SrcEvent) (dest : List GEvent)
    (hdist : evs.Pairwise (fun a b => a.uid ≠ b.uid))
    (hwin : ∀ e ∈ evs, win tmin tmax e.startPayload e.endPayload = true) :
    ∀ ev ∈ evs, syncedB win tmin tmax ev (runPass win tmin tmax evs dest).dest := by
  induction evs generalizing dest with
  | nil => intro ev hev; simp at hev
  | cons e rest ih =>
      intro ev hev
      obtain ⟨hhead, htail⟩ := List.pairwise_cons.mp hdist
      rcases List.mem_cons.mp hev with rfl | hmem
      · exact runPass_preserves_synced rest _
          (fun x hx => (hhead x hx).symm)
          (ensure_establishes_synced ev dest (hwin ev (List.mem_cons_self ev rest)))
      · exact ih (ensureEvent win tmin tmax e dest).dest htail
          (fun x hx => hwin x (List.mem_cons_of_mem e hx)) ev hmem

/-- A pass over records whose invariant already holds leaves the
destination unchanged, issues only lookup calls, and logs only
no-change lines. -/
theorem runPass_noop_of_all_synced {win : WinPred} {tmin tmax : String}
    (evs : List SrcEvent) (dest : List GEvent)
    (h : ∀ ev ∈ evs, syncedB win tmin tmax ev dest) :
    (runPass win tmin tmax evs dest).dest = dest
    ∧ (∀ c ∈ (runPass win tmin tmax evs dest).calls, c.isMutation = false)
    ∧ (∀ lg ∈ (runPass win tmin tmax evs dest).logs, ∃ s, lg = .nochange s) := by
  induction evs with
  | nil => simp [runPass]
  | cons e rest ih =>
      have he := ensure_noop_of_synced (h e (List.mem_cons_self e rest))
      have hrest := ih (fun ev hev => h ev (List.mem_cons_of_mem e hev))
      refine ⟨?_, ?_, ?_⟩
      · simp only [runPass, he]
        exact hrest.1
      · simp only [runPass, he]
        intro c hc
        rcases List.mem_append.mp hc with hc | hc
        · have : c = DestCall.list tmin tmax e.uid := by simpa using hc
          rw [this]
          rfl
        · exact hrest.2.1 c hc
      · simp only [runPass, he]
        intro lg hlg
        rcases List.mem_append.mp hlg with hlg | hlg
        · exact ⟨e.summary, by simpa using hlg⟩
        · exact hrest.2.2 lg hlg

/-- C1: running the pass twice with the source, window and window
predicate unchanged issues zero create and zero patch calls on the
second pass — every record reaches the no-op branch and the destination
is unchanged — provided the records carry pairwise-distinct identity
keys and their times lie in the lookup window. -/
theorem second_pass_no_mutations (win : WinPred) (tmin tmax : String)
    (evs : List SrcEvent) (dest : List GEvent)
    (hdist : evs.Pairwise (fun a b => a.uid ≠ b.uid))
    (hwin : ∀ e ∈ evs, win tmin tmax e.startPayload e.endPayload = true) :
    ((runPass win tmin tmax evs (runPass win tmin tmax evs dest).dest).calls.countP
        (fun c => c.isMutation)) = 0
    ∧ (∀ lg ∈ (runPass win tmin tmax evs
          (runPass win tmin tmax evs dest).dest).logs, ∃ s, lg = .nochange s)
    ∧ (runPass win tmin tmax evs (runPass win tmin tmax evs dest).dest).dest
        = (runPass win tmin tmax evs dest).dest := by
  have hall := runPass_all_synced evs dest hdist hwin
  have h6 := runPass_noop_of_all_synced evs _ hall
  refine ⟨?_, h6.2.2, h6.1⟩
  rw [List.countP_eq_zero]
  intro c hc
  simp [h6.2.1 c hc]

/-- Witness for second_pass_no_mutations: two concrete records with
distinct identity keys, synced into an empty destination; the second
pass issues no mutation call. -/
theorem second_pass_no_mutations_witness :
    ((runPass exWin "a" "b" [exSynced, exOther]
        (runPass exWin "a" "b" [exSynced, exOther] []).dest).calls.countP
        (fun c => c.isMutation)) = 0 :=
  (second_pass_no_mutations exWin "a" "b" [exSynced, exOther] []
    (by decide) (by decide)).1

end IServSync
